import Mathlib

/-!
Shallow embedding of the lookup core of main.py from the
Domain-info-app repository: domain syntax validation (validate_domain),
the field normalizers (format_date, clean_status), the WHOIS fetcher
(fetch_whois_info), the DNS fetcher (fetch_dns_record,
fetch_dns_records) and the fetch handler (fetch_data).

The two network collaborators (the whois library call and the DNS
resolver) are modelled as oracle functions supplied to the fetchers.
Python runtime values that can reach the normalizers are modelled by
the inductive type Py, and a computation that can raise an exception
is modelled by Except, with the exception text as the error value.
The presentation layer of main.py (widgets, theming, key handling) is
outside the embedded core.
-/

/-- ASCII whitespace: the separator characters of Python str.split and
str.strip (space, tab, newline, carriage return, vertical tab, form
feed). The unicode additions of Python are not modelled; no claim
involves them. -/
def isPyWS (c : Char) : Bool :=
  decide (c = ' ') || decide (c = '\t') || decide (c = '\n') ||
    decide (c = '\r') || decide (c = '\x0b') || decide (c = '\x0c')

/-- The character class a-zA-Z of the validation regex in
validate_domain (main.py line 12). -/
def isAlphaCh (c : Char) : Bool :=
  (decide ('a' ≤ c) && decide (c ≤ 'z')) || (decide ('A' ≤ c) && decide (c ≤ 'Z'))

/-- The character class a-zA-Z0-9 plus hyphen of the validation regex
(main.py line 12). -/
def isLabelChar (c : Char) : Bool :=
  isAlphaCh c || (decide ('0' ≤ c) && decide (c ≤ '9')) || decide (c = '-')

/-- Split a character list at every dot. Because no character class of
the validation regex matches a dot, a regex match decomposes the
matched text at exactly the dot positions, so matching reduces to
conditions on the pieces this function produces. -/
def splitDots : List Char → List (List Char)
  | [] => [[]]
  | c :: rest =>
    if c = '.' then [] :: splitDots rest
    else
      match splitDots rest with
      | [] => [[c]]
      | p :: ps => (c :: p) :: ps

/-- Inverse of splitDots: interleave the pieces with dots. -/
def joinDots : List (List Char) → List Char
  | [] => []
  | [l] => l
  | l :: ls => l ++ '.' :: joinDots ls

/-- One repetition of the group in the validation regex: 1 to 63
characters of letters, digits and hyphens, where the lookbehind before
the dot forbids a hyphen as the last character. -/
def okInner (l : List Char) : Bool :=
  decide (1 ≤ l.length) && decide (l.length ≤ 63) && l.all isLabelChar &&
    !decide (l.getLast? = some '-')

/-- The final piece of the validation regex: at least two alphabetic
characters. -/
def okFinal (l : List Char) : Bool :=
  decide (2 ≤ l.length) && l.all isAlphaCh

/-- The positions where an unescaped dollar anchor matches in Python
re without MULTILINE: the end of the string, or just before one
newline that ends the string. Since no character class of the pattern
matches a newline, matching the whole pattern against a string is
matching it against the string with one trailing newline removed. -/
def pyDollarTrim (cs : List Char) : List Char :=
  match cs.getLast? with
  | some c => if c = '\n' then cs.dropLast else cs
  | none => cs

/-- All pieces but the last satisfy okInner and the last satisfies
okFinal: the body of the validation regex after the leading
lookahead. -/
def innerFinal : List (List Char) → Bool
  | [] => false
  | [q] => okFinal q
  | p :: ps => okInner p && innerFinal ps

/-- The whole validation regex on an already split string: the group
is repeated one or more times, so there are at least two pieces; the
lookahead at position zero says the very first character, hence the
first character of the first piece, is not a hyphen; the pieces then
satisfy innerFinal. -/
def validParts : List (List Char) → Bool
  | p :: q :: ps => !decide (p.head? = some '-') && innerFinal (p :: q :: ps)
  | _ => false

/-- validate_domain of main.py (lines 11-13): re.match of the pattern
caret, lookahead forbidding a hyphen, one or more repetitions of 1..63
label characters with a lookbehind forbidding a hyphen before the dot,
then two or more letters, dollar. re.match anchors at the start, and
the final dollar also matches just before one newline ending the
string (pyDollarTrim). -/
def validate_domain (s : String) : Bool :=
  validParts (splitDots (pyDollarTrim s.toList))

/-- Spec wording for a non-final label: 1 to 63 characters of letters,
digits and hyphens, not ending in a hyphen. -/
def specInnerLabel (l : List Char) : Prop :=
  1 ≤ l.length ∧ l.length ≤ 63 ∧ (∀ c ∈ l, isLabelChar c = true) ∧
    l.getLast? ≠ some '-'

instance (l : List Char) : Decidable (specInnerLabel l) := by
  unfold specInnerLabel; infer_instance

/-- Spec wording for the final label: at least two alphabetic
characters. -/
def specFinalLabel (l : List Char) : Prop :=
  2 ≤ l.length ∧ ∀ c ∈ l, isAlphaCh c = true

instance (l : List Char) : Decidable (specFinalLabel l) := by
  unfold specFinalLabel; infer_instance

/-- Date value of the Python datetime module restricted to the fields
used by strftime with format percent-b, percent-d, percent-Y. -/
structure PyDatetime where
  year : Nat
  month : Nat
  day : Nat
deriving DecidableEq

/-- Month abbreviations of strftime percent-b in the C locale. Python
datetime months are 1 to 12, so the fallback is unreachable. -/
def monthAbbrev : Nat → String
  | 1 => "Jan" | 2 => "Feb" | 3 => "Mar" | 4 => "Apr"
  | 5 => "May" | 6 => "Jun" | 7 => "Jul" | 8 => "Aug"
  | 9 => "Sep" | 10 => "Oct" | 11 => "Nov" | 12 => "Dec"
  | _ => ""

/-- Zero padding to two digits, as strftime percent-d prints the day. -/
def pad2 (n : Nat) : String :=
  if n < 10 then "0" ++ toString n else toString n

/-- Zero padding to four digits, as Python strftime percent-Y prints
the year. -/
def pad4 (n : Nat) : String :=
  if n < 10 then "000" ++ toString n
  else if n < 100 then "00" ++ toString n
  else if n < 1000 then "0" ++ toString n
  else toString n

/-- d.strftime of the fixed format string percent-b space percent-d
comma space percent-Y used in format_date (main.py lines 17 and 19). -/
def strftimeBDY (d : PyDatetime) : String :=
  monthAbbrev d.month ++ " " ++ pad2 d.day ++ ", " ++ pad4 d.year

/-- The Python runtime values that flow through the normalizers:
strings, datetimes, sequences (list or tuple collapsed into one
constructor, as every isinstance check of main.py treats them alike),
None, and any other scalar carrying only its truthiness. -/
inductive Py where
  | pStr (s : String)
  | pDatetime (d : PyDatetime)
  | pList (xs : List Py)
  | pNone
  | pOther (truthy : Bool)

/-- format_date of main.py (lines 15-20): on a list or tuple, keep the
datetime elements in order and format each (the comprehension filters
on isinstance datetime); on a single datetime, format it; on anything
else return None. It is total: strftime on a datetime never raises. -/
def format_date : Py → Py
  | .pList xs =>
    .pList (xs.filterMap fun e =>
      match e with
      | Py.pDatetime d => some (Py.pStr (strftimeBDY d))
      | _ => none)
  | .pDatetime d => .pStr (strftimeBDY d)
  | _ => .pNone

/-- The list of datetime elements of a sequence, in order: the
spec-side description of what the format_date comprehension keeps. -/
def dateElems : List Py → List PyDatetime
  | [] => []
  | .pDatetime d :: rest => d :: dateElems rest
  | _ :: rest => dateElems rest

/-- First whitespace-delimited token of a Python string: the element
at index zero of s.split(). none when the string has no token, in
which case the indexing in clean_status raises IndexError with text
list index out of range. -/
def firstToken (s : String) : Option String :=
  let tok := (s.toList.dropWhile isPyWS).takeWhile fun c => !isPyWS c
  if tok = [] then none else some (String.mk tok)

/-- Left-to-right evaluation of the list comprehension in clean_status
(main.py line 24): the first token of every string element, skipping
non-string elements; the first string element without a token raises
IndexError. -/
def tokensOf : List Py → Except String (List String)
  | [] => .ok []
  | .pStr s :: rest =>
    match firstToken s with
    | some t => (tokensOf rest).map fun ts => t :: ts
    | none => .error "list index out of range"
  | _ :: rest => tokensOf rest

/-- The string elements of a sequence, in order: the spec-side
description of which elements the clean_status comprehension keeps. -/
def statusStrings : List Py → List String
  | [] => []
  | .pStr s :: rest => s :: statusStrings rest
  | _ :: rest => statusStrings rest

/-- clean_status of main.py (lines 22-27): on a list or tuple, the
first token of every string element with non-strings dropped; on a
single string, its first token; on anything else None. A string
without a token makes the indexing raise, modelled as the error
branch. -/
def clean_status : Py → Except String Py
  | .pList xs => (tokensOf xs).map fun ts => Py.pList (ts.map Py.pStr)
  | .pStr s =>
    match firstToken s with
    | some t => .ok (.pStr t)
    | none => .error "list index out of range"
  | _ => .ok .pNone

/-- Python truthiness of the modelled values: empty string, empty
sequence and None are falsy; a datetime is truthy; any other scalar
carries its own truthiness. -/
def pyTruthy : Py → Bool
  | .pStr s => !decide (s = "")
  | .pList xs => !xs.isEmpty
  | .pDatetime _ => true
  | .pNone => false
  | .pOther b => b

/-- The Python list constructor applied to a value: a sequence gives
its elements, a string gives its characters as one-character strings,
anything else is not iterable and raises TypeError (the exception text
of the concrete non-iterable type is modelled by a fixed message). -/
def pyList : Py → Except String (List Py)
  | .pList xs => .ok xs
  | .pStr s => .ok (s.toList.map fun c => Py.pStr (String.mk [c]))
  | _ => .error "object is not iterable"

/-- The Nameservers entry of fetch_whois_info (main.py line 40):
list of the field when the field is truthy, None otherwise. -/
def ns_value (ns : Py) : Except String Py :=
  if pyTruthy ns then Except.map Py.pList (pyList ns) else .ok Py.pNone

/-- The raw record the whois library hands back on a successful call,
with the five fields fetch_whois_info reads; each field shape is
heterogeneous upstream, so every field is a Py value. -/
structure WhoisRecord where
  registrar : Py
  creation_date : Py
  expiration_date : Py
  status : Py
  name_servers : Py

/-- Outcome of the whois collaborator call: a record, a raised
WhoisException with its text, or any other raised exception with its
text. -/
inductive WhoisOutcome where
  | ok (w : WhoisRecord)
  | whoisErr (msg : String)
  | otherErr (msg : String)

/-- The normalized registration record fetch_whois_info builds on
success, fields in the order of the source dictionary literal. -/
structure RegRecord where
  registrar : Py
  createdDate : Py
  expiryDate : Py
  status : Py
  nameservers : Py

/-- Result of fetch_whois_info: the registration record, or the error
dictionary of handle_error carrying only its message. -/
inductive WhoisResult where
  | success (r : RegRecord)
  | err (msg : String)

/-- The try-block body of fetch_whois_info after the collaborator call
succeeded: the dictionary values are computed in source order, and
clean_status on the Status value and the list conversion on the
Nameservers value are the two computations that can raise, in that
order (format_date is total). -/
def whoisBody (w : WhoisRecord) : Except String RegRecord := do
  let st ← clean_status w.status
  let ns ← ns_value w.name_servers
  pure (RegRecord.mk w.registrar (format_date w.creation_date)
    (format_date w.expiration_date) st ns)

/-- fetch_whois_info of main.py (lines 32-45): call the collaborator;
on success build the record, where an exception raised while building
it is caught by the catch-all branch (IndexError and TypeError are not
WhoisException); a WhoisException becomes the WHOIS lookup failed
message; any other exception becomes the Unexpected error message.
Nothing is raised past this function. -/
def fetch_whois_info (wres : String → WhoisOutcome) (domain : String) : WhoisResult :=
  match wres domain with
  | .ok w =>
    match whoisBody w with
    | .ok r => .success r
    | .error e => .err ("Unexpected error fetching WHOIS: " ++ e)
  | .whoisErr e => .err ("WHOIS lookup failed: " ++ e)
  | .otherErr e => .err ("Unexpected error fetching WHOIS: " ++ e)

/-- Outcome of one DNS resolver call: the answer texts in resolver
order, or one of the three classified failures, or any other raised
exception with its text. -/
inductive DnsOutcome where
  | answers (records : List String)
  | noAnswer
  | nxdomain
  | timeout
  | otherErr (msg : String)

/-- Result of fetch_dns_record: the list of answer texts, or the error
dictionary of handle_error carrying only its message. -/
inductive DnsFetchRes where
  | list (records : List String)
  | errDict (msg : String)

/-- A value of the mapping fetch_dns_records builds: a list of answer
texts, or the message string extracted from an error dictionary. -/
inductive DnsVal where
  | records (values : List String)
  | msg (message : String)

/-- The extraction on main.py line 67: a non-dictionary result is kept
as is, a dictionary result is replaced by its error entry. -/
def entryVal : DnsFetchRes → DnsVal
  | .list xs => .records xs
  | .errDict m => .msg m

/-- The fixed record type list of fetch_dns_records (main.py line 63). -/
def recordTypes : List String := ["A", "NS", "CNAME", "MX", "TXT"]

/-- fetch_dns_record of main.py (lines 47-60): one resolver call,
classified into the answer list or one of the four handle_error
messages. Nothing is raised past this function. The resolver oracle
takes the domain and then the record type, as resolver.resolve does. -/
def fetch_dns_record (dres : String → String → DnsOutcome)
    (record_type domain : String) : DnsFetchRes :=
  match dres domain record_type with
  | .answers xs => .list xs
  | .noAnswer => .errDict ("No " ++ record_type ++ " records found.")
  | .nxdomain => .errDict ("Domain \x27" ++ domain ++ "\x27 does not exist.")
  | .timeout => .errDict "DNS query timed out. Check your network."
  | .otherErr e => .errDict ("Error retrieving " ++ record_type ++ " records: " ++ e)

/-- fetch_dns_records of main.py (lines 62-68): one fetch per record
type, assembled in insertion order into an association list, with
error dictionaries flattened to their message by entryVal. -/
def fetch_dns_records (dres : String → String → DnsOutcome)
    (domain : String) : List (String × DnsVal) :=
  recordTypes.map fun rt => (rt, entryVal (fetch_dns_record dres rt domain))

/-- Lookup of a key in the association list standing for the Python
dictionary. -/
def dictGet (k : String) : List (String × DnsVal) → Option DnsVal
  | [] => none
  | (k2, v) :: rest => if k2 = k then some v else dictGet k rest

/-- Python str.strip with no argument: remove leading and trailing
whitespace. -/
def pyStrip (s : String) : String :=
  String.mk (((s.toList.dropWhile isPyWS).reverse.dropWhile isPyWS).reverse)

/-- The combined result the handler assembles: the WHOIS outcome plus
the DNS record mapping. -/
structure LookupResult where
  whois : WhoisResult
  dns : List (String × DnsVal)

/-- Terminal state of one handler invocation: rejected with a status
signal, or done with a final status and the assembled result. -/
inductive FetchOutcome where
  | rejected (signal : String)
  | done (status : String) (res : LookupResult)

/-- One handler invocation together with the number of collaborator
invocations it performed, the observation a test double records. -/
structure Trace where
  outcome : FetchOutcome
  whoisCalls : Nat
  dnsCalls : Nat

/-- fetch_data of main.py (lines 84-119): strip the input; reject with
the fixed Invalid Domain status when the result is empty, which is the
only validation the handler performs (validate_domain is defined in
main.py but never called); otherwise perform the WHOIS fetch and the
five DNS fetches and assemble the result with final status Ready. The
source awaits the two fetch calls; the await is modelled as
transparent, following the design note that either concurrency idiom
satisfies the assembly contract. -/
def fetch_data (wres : String → WhoisOutcome)
    (dres : String → String → DnsOutcome) (input : String) : Trace :=
  let domain := pyStrip input
  if domain = "" then
    Trace.mk (FetchOutcome.rejected "Error: Invalid Domain") 0 0
  else
    Trace.mk
      (FetchOutcome.done "Ready"
        (LookupResult.mk (fetch_whois_info wres domain) (fetch_dns_records dres domain)))
      1 5

/-- A deterministic WHOIS collaborator double. -/
def wDouble : String → WhoisOutcome := fun _ => .whoisErr "no record"

/-- A deterministic DNS collaborator double answering every query. -/
def dDouble : String → String → DnsOutcome := fun _ _ => .answers ["1.2.3.4"]

/-- A deterministic DNS collaborator double timing out on MX only. -/
def tDouble : String → String → DnsOutcome :=
  fun _ rt => if rt = "MX" then .timeout else .answers ["93.184.216.34"]

/-- A WHOIS double answering successfully with well-shaped fields. -/
def goodWhoisDouble : String → WhoisOutcome :=
  fun _ => .ok (WhoisRecord.mk (Py.pStr "Example Registrar")
    (Py.pDatetime (PyDatetime.mk 2024 1 5)) (Py.pDatetime (PyDatetime.mk 2025 1 5))
    (Py.pStr "clientTransferProhibited extra")
    (Py.pList [Py.pStr "ns1.example.com", Py.pStr "ns2.example.com"]))

/-- A WHOIS double answering successfully with an empty status string. -/
def emptyStatusDouble : String → WhoisOutcome :=
  fun _ => .ok (WhoisRecord.mk (Py.pStr "Example Registrar") Py.pNone Py.pNone
    (Py.pStr "") Py.pNone)

/-- A WHOIS double answering successfully with a status sequence that
contains a whitespace-only string. -/
def wsStatusDouble : String → WhoisOutcome :=
  fun _ => .ok (WhoisRecord.mk Py.pNone Py.pNone Py.pNone
    (Py.pList [Py.pStr "ok active", Py.pStr "   "]) Py.pNone)

theorem splitDots_ne_nil (cs : List Char) : splitDots cs ≠ [] := by
  induction cs with
  | nil => simp [splitDots]
  | cons c rest ih =>
    simp only [splitDots]
    split
    · simp
    · cases h : splitDots rest with
      | nil => simp
      | cons p ps => simp

theorem joinDots_cons (p : List Char) (q : List (List Char)) (hq : q ≠ []) :
    joinDots (p :: q) = p ++ '.' :: joinDots q := by
  cases q with
  | nil => exact absurd rfl hq
  | cons a l => rfl

theorem joinDots_cons_head (c : Char) (p : List Char) (ps : List (List Char)) :
    joinDots ((c :: p) :: ps) = c :: joinDots (p :: ps) := by
  cases ps <;> rfl

theorem joinDots_splitDots (cs : List Char) : joinDots (splitDots cs) = cs := by
  induction cs with
  | nil => rfl
  | cons c rest ih =>
    by_cases h : c = '.'
    · subst h
      have h1 : splitDots ('.' :: rest) = [] :: splitDots rest := rfl
      rw [h1, joinDots_cons _ _ (splitDots_ne_nil rest), ih]
      rfl
    · simp only [splitDots, if_neg h]
      cases hs : splitDots rest with
      | nil => exact absurd hs (splitDots_ne_nil rest)
      | cons p ps =>
        rw [hs] at ih
        rw [joinDots_cons_head, ih]

theorem splitDots_no_dot (p : List Char) (h : '.' ∉ p) : splitDots p = [p] := by
  induction p with
  | nil => rfl
  | cons c rest ih =>
    have hc : c ≠ '.' := fun e => h (e ▸ List.mem_cons_self c rest)
    have hr : '.' ∉ rest := fun m => h (List.mem_cons_of_mem _ m)
    simp only [splitDots, if_neg hc, ih hr]

theorem splitDots_append_dot (p t : List Char) (h : '.' ∉ p) :
    splitDots (p ++ '.' :: t) = p :: splitDots t := by
  induction p with
  | nil => simp [splitDots]
  | cons c rest ih =>
    have hc : c ≠ '.' := fun e => h (e ▸ List.mem_cons_self c rest)
    have hr : '.' ∉ rest := fun m => h (List.mem_cons_of_mem _ m)
    simp only [List.cons_append, splitDots, if_neg hc]
    rw [show splitDots (rest.append ('.' :: t)) = rest :: splitDots t from ih hr]

theorem splitDots_joinDots (ls : List (List Char)) (hne : ls ≠ [])
    (hdf : ∀ l ∈ ls, '.' ∉ l) : splitDots (joinDots ls) = ls := by
  induction ls with
  | nil => exact absurd rfl hne
  | cons p ps ih =>
    cases ps with
    | nil => exact splitDots_no_dot p (hdf p (List.mem_cons_self _ _))
    | cons q qs =>
      rw [joinDots_cons p (q :: qs) (by simp)]
      rw [splitDots_append_dot p _ (hdf p (List.mem_cons_self _ _))]
      rw [ih (by simp) fun l hl => hdf l (List.mem_cons_of_mem _ hl)]

theorem okInner_iff (l : List Char) : okInner l = true ↔ specInnerLabel l := by
  simp [okInner, specInnerLabel, List.all_eq_true, and_assoc]

theorem okFinal_iff (l : List Char) : okFinal l = true ↔ specFinalLabel l := by
  simp [okFinal, specFinalLabel, List.all_eq_true]

theorem innerFinal_append (inner : List (List Char)) (flab : List Char) :
    innerFinal (inner ++ [flab]) = (inner.all okInner && okFinal flab) := by
  induction inner with
  | nil => simp [innerFinal]
  | cons p rest ih =>
    cases rest with
    | nil => simp [innerFinal]
    | cons q qs =>
      simp only [List.cons_append] at ih ⊢
      rw [innerFinal, ih]
      · simp [List.all_cons, Bool.and_assoc]
      · simp

theorem validParts_eq (p : List Char) (rest : List (List Char)) (h : rest ≠ []) :
    validParts (p :: rest) =
      (!decide (p.head? = some '-') && innerFinal (p :: rest)) := by
  cases rest with
  | nil => exact absurd rfl h
  | cons q qs => rfl

theorem exists_init_last (l : List (List Char)) (h : l ≠ []) :
    ∃ init lastp, l = init ++ [lastp] := by
  induction l with
  | nil => exact absurd rfl h
  | cons x xs ih =>
    cases xs with
    | nil => exact ⟨[], x, rfl⟩
    | cons y ys =>
      obtain ⟨init, lastp, he⟩ := ih (by simp)
      exact ⟨x :: init, lastp, by rw [List.cons_append, ← he]⟩

theorem labelChar_ne_dot (l : List Char) (h : ∀ c ∈ l, isLabelChar c = true) :
    '.' ∉ l := by
  intro hm
  have := h '.' hm
  simp [isLabelChar, isAlphaCh] at this

theorem alphaChar_ne_dot (l : List Char) (h : ∀ c ∈ l, isAlphaCh c = true) :
    '.' ∉ l := by
  intro hm
  have := h '.' hm
  simp [isAlphaCh] at this

/-- C3 counterexample: the claim says validate returns false whenever
any label starts with a hyphen, but the lookahead of the regex applies
only at position zero, so a non-first label may start with a hyphen:
the second label of a.-b.com does, yet validate_domain accepts it. -/
theorem C3_validate_accepts_inner_hyphen :
    validate_domain "a.-b.com" = true ∧
      splitDots (String.toList "a.-b.com") = [['a'], ['-', 'b'], ['c', 'o', 'm']] := by
  constructor <;> decide

/-- C3 (amended): after allowing for the dollar anchor also matching
just before one final newline, validate_domain returns true exactly
for strings made of one or more dot-separated labels followed by a
final label of at least two alphabetic characters, where every
non-final label is 1 to 63 characters of letters, digits and hyphens
with no trailing hyphen, and where only the first label is
additionally barred from starting with a hyphen. -/
theorem C3_validate_characterization (s : String) :
    validate_domain s = true ↔
      ∃ inner flab, inner ≠ [] ∧
        pyDollarTrim s.toList = joinDots (inner ++ [flab]) ∧
        (inner.headD []).head? ≠ some '-' ∧
        (∀ l ∈ inner, specInnerLabel l) ∧ specFinalLabel flab := by
  constructor
  · intro h
    unfold validate_domain at h
    cases hsp : splitDots (pyDollarTrim s.toList) with
    | nil => rw [hsp] at h; simp [validParts] at h
    | cons p rest =>
      cases rest with
      | nil => rw [hsp] at h; simp [validParts] at h
      | cons q ps =>
        rw [hsp, validParts_eq p (q :: ps) (by simp), Bool.and_eq_true] at h
        obtain ⟨hhead, hif⟩ := h
        have hhead2 : p.head? ≠ some '-' := by simpa using hhead
        obtain ⟨inner, flab, hdec⟩ := exists_init_last (p :: q :: ps) (by simp)
        have hlen : inner ≠ [] := by
          intro e
          rw [e, List.nil_append] at hdec
          simp at hdec
        rw [hdec, innerFinal_append, Bool.and_eq_true] at hif
        obtain ⟨hall, hfin⟩ := hif
        refine ⟨inner, flab, hlen, ?_, ?_, ?_, (okFinal_iff flab).mp hfin⟩
        · rw [← hdec, ← hsp]
          exact (joinDots_splitDots _).symm
        · cases inner with
          | nil => exact absurd rfl hlen
          | cons a t =>
            rw [List.cons_append] at hdec
            injection hdec with h1 h2
            rw [List.headD_cons, ← h1]
            exact hhead2
        · intro l hl
          exact (okInner_iff l).mp (List.all_eq_true.mp hall l hl)
  · rintro ⟨inner, flab, hne, heq, hhead, hinner, hfin⟩
    unfold validate_domain
    have hdf : ∀ l ∈ inner ++ [flab], '.' ∉ l := by
      intro l hl
      rcases List.mem_append.mp hl with h1 | h2
      · exact labelChar_ne_dot l fun c hc => (hinner l h1).2.2.1 c hc
      · rw [List.mem_singleton] at h2
        subst h2
        exact alphaChar_ne_dot l hfin.2
    have hsp : splitDots (pyDollarTrim s.toList) = inner ++ [flab] := by
      rw [heq]
      exact splitDots_joinDots _ (by simp) hdf
    rw [hsp]
    cases inner with
    | nil => exact absurd rfl hne
    | cons a t =>
      rw [List.cons_append, validParts_eq a (t ++ [flab]) (by simp),
        Bool.and_eq_true]
      constructor
      · rw [List.headD_cons] at hhead
        simpa using hhead
      · rw [← List.cons_append, innerFinal_append, Bool.and_eq_true]
        refine ⟨List.all_eq_true.mpr fun l hl => (okInner_iff l).mpr (hinner l hl), ?_⟩
        exact (okFinal_iff flab).mpr hfin

/-- C3 witness: the characterization applied to sub.example.co.uk with
its explicit decomposition into three inner labels and the final
label. -/
theorem C3_validate_characterization_witness :
    validate_domain "sub.example.co.uk" = true :=
  (C3_validate_characterization "sub.example.co.uk").mpr
    ⟨[['s', 'u', 'b'], ['e', 'x', 'a', 'm', 'p', 'l', 'e'], ['c', 'o']], ['u', 'k'],
      by decide, by decide, by decide, by decide, by decide⟩

theorem toList_append (a b : String) : (a ++ b).toList = a.toList ++ b.toList := by
  cases a
  cases b
  rfl

theorem pyDollarTrim_concat_newline (l : List Char) :
    pyDollarTrim (l ++ ['\n']) = l := by
  unfold pyDollarTrim
  rw [List.getLast?_concat]
  simp [List.dropLast_concat]

theorem pyDollarTrim_eq_self (l : List Char) (h : l.getLast? ≠ some '\n') :
    pyDollarTrim l = l := by
  unfold pyDollarTrim
  cases hl : l.getLast? with
  | none => rfl
  | some c =>
    have hc : c ≠ '\n' := fun e => h (by rw [hl, e])
    simp [hc]

/-- C9 counterexample: the string example.com with one trailing
newline is itself accepted by the matcher, but appending a further
newline to it is rejected, because the dollar anchor matches before
at most one final newline; so the claim fails when quantified over
every accepted string. -/
theorem C9_newline_double :
    validate_domain "example.com\n" = true ∧
      validate_domain ("example.com\n" ++ "\n") = false := by
  constructor <;> decide

/-- C9 (amended): for every accepted string that does not itself end
in a newline, appending a single newline still validates, because the
dollar anchor of the pattern also matches immediately before one
final newline. -/
theorem C9_trailing_newline (s : String) (h : validate_domain s = true)
    (hnl : s.toList.getLast? ≠ some '\n') :
    validate_domain (s ++ "\n") = true := by
  unfold validate_domain at h ⊢
  rw [toList_append]
  have h1 : String.toList "\n" = ['\n'] := rfl
  rw [h1, pyDollarTrim_concat_newline]
  rw [pyDollarTrim_eq_self s.toList hnl] at h
  exact h

/-- C9 witness: the amended statement applied to example.com. -/
theorem C9_trailing_newline_witness :
    validate_domain ("example.com" ++ "\n") = true :=
  C9_trailing_newline "example.com" (by decide) (by decide)

theorem tokensOf_total (xs : List Py)
    (h : ∀ s ∈ statusStrings xs, firstToken s ≠ none) :
    tokensOf xs = .ok ((statusStrings xs).filterMap firstToken) := by
  induction xs with
  | nil => rfl
  | cons e rest ih =>
    cases e with
    | pStr s =>
      have hs : firstToken s ≠ none := h s (by simp [statusStrings])
      cases hf : firstToken s with
      | none => exact absurd hf hs
      | some t =>
        have hrest := ih fun s2 hs2 => h s2 (by
          simp only [statusStrings, List.mem_cons]
          exact Or.inr hs2)
        simp [tokensOf, statusStrings, hf, hrest, List.filterMap_cons, Except.map]
    | pDatetime d =>
      simpa [tokensOf, statusStrings] using
        ih fun s2 hs2 => h s2 (by simpa [statusStrings] using hs2)
    | pList ys =>
      simpa [tokensOf, statusStrings] using
        ih fun s2 hs2 => h s2 (by simpa [statusStrings] using hs2)
    | pNone =>
      simpa [tokensOf, statusStrings] using
        ih fun s2 hs2 => h s2 (by simpa [statusStrings] using hs2)
    | pOther b =>
      simpa [tokensOf, statusStrings] using
        ih fun s2 hs2 => h s2 (by simpa [statusStrings] using hs2)

theorem tokensOf_fails (xs : List Py) (s : String) (hmem : Py.pStr s ∈ xs)
    (hnone : firstToken s = none) :
    tokensOf xs = .error "list index out of range" := by
  induction xs with
  | nil => cases hmem
  | cons e rest ih =>
    cases e with
    | pStr s2 =>
      cases hf : firstToken s2 with
      | none => simp [tokensOf, hf]
      | some t =>
        have hrest : Py.pStr s ∈ rest := by
          cases hmem with
          | head => rw [hnone] at hf; cases hf
          | tail _ h2 => exact h2
        simp [tokensOf, hf, ih hrest, Except.map]
    | pDatetime d =>
      cases hmem with
      | tail _ h2 => simpa [tokensOf] using ih h2
    | pList ys =>
      cases hmem with
      | tail _ h2 => simpa [tokensOf] using ih h2
    | pNone =>
      cases hmem with
      | tail _ h2 => simpa [tokensOf] using ih h2
    | pOther b =>
      cases hmem with
      | tail _ h2 => simpa [tokensOf] using ih h2

/-- C2 counterexample: clean_status is not total. On the empty string
the split produces no token and the indexing raises IndexError, so the
claim that clean_status never fails is false. -/
theorem C2_clean_status_not_total :
    clean_status (Py.pStr "") = .error "list index out of range" := rfl

/-- C2 (amended): clean_status never fails except when given a string
without a whitespace-delimited token, or a sequence one of whose
string elements has no token; there it raises IndexError. On a string
with a token it returns the first token; on a sequence whose string
elements all have tokens it returns the ordered first tokens with
non-string elements dropped; on every non-string non-sequence value it
returns None. -/
theorem C2_clean_status_behavior :
    (∀ s t, firstToken s = some t → clean_status (Py.pStr s) = .ok (Py.pStr t)) ∧
    (∀ s, firstToken s = none →
       clean_status (Py.pStr s) = .error "list index out of range") ∧
    (∀ xs, (∀ s ∈ statusStrings xs, firstToken s ≠ none) →
       clean_status (Py.pList xs) =
         .ok (Py.pList ((statusStrings xs).filterMap
           fun s => (firstToken s).map Py.pStr))) ∧
    (∀ xs s, Py.pStr s ∈ xs → firstToken s = none →
       clean_status (Py.pList xs) = .error "list index out of range") ∧
    (∀ d, clean_status (Py.pDatetime d) = .ok Py.pNone) ∧
    (clean_status Py.pNone = .ok Py.pNone) ∧
    (∀ b, clean_status (Py.pOther b) = .ok Py.pNone) := by
  refine ⟨?_, ?_, ?_, ?_, fun d => rfl, rfl, fun b => rfl⟩
  · intro s t h
    simp [clean_status, h]
  · intro s h
    simp [clean_status, h]
  · intro xs h
    simp only [clean_status, tokensOf_total xs h, Except.map]
    rw [List.map_filterMap]
  · intro xs s hmem hnone
    simp [clean_status, tokensOf_fails xs s hmem hnone, Except.map]

/-- C2 witness: the two examples of the spec, the single string and
the sequence of two strings, through the amended statement. -/
theorem C2_clean_status_behavior_witness :
    clean_status (Py.pStr "ok extra") = .ok (Py.pStr "ok") ∧
    clean_status (Py.pList [Py.pStr "ok extra", Py.pStr "pending now"]) =
      .ok (Py.pList [Py.pStr "ok", Py.pStr "pending"]) :=
  ⟨C2_clean_status_behavior.1 "ok extra" "ok" (by decide),
   C2_clean_status_behavior.2.2.1 [Py.pStr "ok extra", Py.pStr "pending now"]
     (by decide)⟩

theorem filterMap_dates (xs : List Py) :
    (xs.filterMap fun e =>
      match e with
      | Py.pDatetime d => some (Py.pStr (strftimeBDY d))
      | _ => none) =
    (dateElems xs).map fun d => Py.pStr (strftimeBDY d) := by
  induction xs with
  | nil => rfl
  | cons e rest ih => cases e <;> simp [dateElems, List.filterMap_cons, ih]

/-- C7: format_date keeps exactly the datetime elements of a sequence
in order and formats each, so an empty sequence gives an empty
sequence; a single datetime gives one formatted string in the fixed
Mon DD, YYYY shape, as the concrete date January 5 2024 shows; every
non-date non-sequence value gives None; and the function is total. -/
theorem C7_format_date_behavior :
    (∀ xs, format_date (Py.pList xs) =
       Py.pList ((dateElems xs).map fun d => Py.pStr (strftimeBDY d))) ∧
    format_date (Py.pList []) = Py.pList [] ∧
    (∀ d, format_date (Py.pDatetime d) = Py.pStr (strftimeBDY d)) ∧
    strftimeBDY (PyDatetime.mk 2024 1 5) = "Jan 05, 2024" ∧
    (∀ s, format_date (Py.pStr s) = Py.pNone) ∧
    format_date Py.pNone = Py.pNone ∧
    (∀ b, format_date (Py.pOther b) = Py.pNone) := by
  refine ⟨fun xs => ?_, rfl, fun d => rfl, by decide, fun s => rfl, rfl, fun b => rfl⟩
  exact congrArg Py.pList (filterMap_dates xs)

/-- C6 counterexample: a successful collaborator response whose status
field is the empty string does not produce a RegistrationRecord; the
IndexError raised while normalizing the status is caught by the
catch-all branch and surfaces as the Unexpected error message. -/
theorem C6_whois_success_can_error :
    emptyStatusDouble "example.com" =
      .ok (WhoisRecord.mk (Py.pStr "Example Registrar") Py.pNone Py.pNone
        (Py.pStr "") Py.pNone) ∧
    fetch_whois_info emptyStatusDouble "example.com" =
      .err "Unexpected error fetching WHOIS: list index out of range" :=
  ⟨rfl, rfl⟩

/-- C6 (amended): fetch_whois_info never raises. On a successful
collaborator response whose status normalizes without failure and
whose nameserver field converts without failure, it returns the
RegistrationRecord with registrar copied, dates normalized by
format_date, status normalized by clean_status and nameservers listed
when present, else absent. A recognized protocol failure returns the
WHOIS lookup failed message; any other collaborator failure, and any
failure raised while building the record, returns the Unexpected
error message. -/
theorem C6_whois_fetch_contract (wres : String → WhoisOutcome) (domain : String) :
    (∀ w st ns, wres domain = .ok w → clean_status w.status = .ok st →
       ns_value w.name_servers = .ok ns →
       fetch_whois_info wres domain =
         .success (RegRecord.mk w.registrar (format_date w.creation_date)
           (format_date w.expiration_date) st ns)) ∧
    (∀ e, wres domain = .whoisErr e →
       fetch_whois_info wres domain = .err ("WHOIS lookup failed: " ++ e)) ∧
    (∀ e, wres domain = .otherErr e →
       fetch_whois_info wres domain =
         .err ("Unexpected error fetching WHOIS: " ++ e)) ∧
    (∀ w e, wres domain = .ok w → whoisBody w = .error e →
       fetch_whois_info wres domain =
         .err ("Unexpected error fetching WHOIS: " ++ e)) := by
  refine ⟨?_, ?_, ?_, ?_⟩
  · intro w st ns h1 h2 h3
    simp [fetch_whois_info, whoisBody, h1, h2, h3, Except.bind, Bind.bind,
      pure, Except.pure]
  · intro e h
    simp [fetch_whois_info, h]
  · intro e h
    simp [fetch_whois_info, h]
  · intro w e h1 h2
    simp [fetch_whois_info, h1, h2]

/-- C6 witness: the contract applied to a well-shaped successful
response, with the status token extracted and the two nameservers
copied in order. -/
theorem C6_whois_fetch_contract_witness :
    fetch_whois_info goodWhoisDouble "example.com" =
      .success (RegRecord.mk (Py.pStr "Example Registrar")
        (format_date (Py.pDatetime (PyDatetime.mk 2024 1 5)))
        (format_date (Py.pDatetime (PyDatetime.mk 2025 1 5)))
        (Py.pStr "clientTransferProhibited")
        (Py.pList [Py.pStr "ns1.example.com", Py.pStr "ns2.example.com"])) :=
  (C6_whois_fetch_contract goodWhoisDouble "example.com").1
    (WhoisRecord.mk (Py.pStr "Example Registrar")
      (Py.pDatetime (PyDatetime.mk 2024 1 5)) (Py.pDatetime (PyDatetime.mk 2025 1 5))
      (Py.pStr "clientTransferProhibited extra")
      (Py.pList [Py.pStr "ns1.example.com", Py.pStr "ns2.example.com"]))
    (Py.pStr "clientTransferProhibited")
    (Py.pList [Py.pStr "ns1.example.com", Py.pStr "ns2.example.com"])
    rfl rfl rfl

/-- C10: when the collaborator succeeds but the status field is a
tokenless string or a sequence containing a tokenless string, the
IndexError from the normalizer is caught by the catch-all branch of
fetch_whois_info and the call returns the Unexpected error record, not
a RegistrationRecord. -/
theorem C10_status_failure_surfaces (wres : String → WhoisOutcome) (domain : String)
    (w : WhoisRecord)
    (hok : wres domain = .ok w)
    (hbad : (∃ s, w.status = Py.pStr s ∧ firstToken s = none) ∨
            (∃ xs s, w.status = Py.pList xs ∧ Py.pStr s ∈ xs ∧ firstToken s = none)) :
    fetch_whois_info wres domain =
      .err "Unexpected error fetching WHOIS: list index out of range" := by
  have herr : clean_status w.status = .error "list index out of range" := by
    rcases hbad with ⟨s, hs, hn⟩ | ⟨xs, s, hxs, hmem, hn⟩
    · rw [hs]
      simp [clean_status, hn]
    · rw [hxs]
      simp [clean_status, tokensOf_fails xs s hmem hn, Except.map]
  have hbody : whoisBody w = .error "list index out of range" := by
    simp [whoisBody, herr, Except.bind, Bind.bind]
  simp [fetch_whois_info, hok, hbody]

/-- C10 witness: a successful response whose status sequence contains
a whitespace-only string surfaces as the Unexpected error record. -/
theorem C10_status_failure_surfaces_witness :
    fetch_whois_info wsStatusDouble "example.com" =
      .err "Unexpected error fetching WHOIS: list index out of range" :=
  C10_status_failure_surfaces wsStatusDouble "example.com"
    (WhoisRecord.mk Py.pNone Py.pNone Py.pNone
      (Py.pList [Py.pStr "ok active", Py.pStr "   "]) Py.pNone)
    rfl
    (Or.inr ⟨[Py.pStr "ok active", Py.pStr "   "], "   ", rfl,
      List.Mem.tail _ (List.Mem.head _), rfl⟩)

/-- C4: for every resolver behaviour and every domain, the mapping
fetch_dns_records builds has exactly the five fixed keys A, NS, CNAME,
MX, TXT in insertion order, and the value under each key is exactly
what that key's own independent fetch produced (a list of answer texts
or one error message string), so a failure of one record type never
changes any other key's value. -/
theorem C4_dns_record_set_shape (dres : String → String → DnsOutcome)
    (domain : String) :
    ((fetch_dns_records dres domain).map Prod.fst = recordTypes) ∧
    ∀ rt ∈ recordTypes,
      dictGet rt (fetch_dns_records dres domain) =
        some (entryVal (fetch_dns_record dres rt domain)) := by
  constructor
  · rfl
  · intro rt hrt
    fin_cases hrt <;> rfl

/-- C4 witness: the MX entry of the mapping is the value of the MX
fetch alone. -/
theorem C4_dns_record_set_shape_witness :
    dictGet "MX" (fetch_dns_records dDouble "example.com") =
      some (entryVal (fetch_dns_record dDouble "MX" "example.com")) :=
  (C4_dns_record_set_shape dDouble "example.com").2 "MX" (by decide)

/-- C5: fetch_dns_record classifies the resolver outcome into exactly
the five cases of the claim, with the exact message strings of
main.py, and, being a total function of the outcome, never raises. -/
theorem C5_dns_record_classification (dres : String → String → DnsOutcome)
    (rt domain : String) :
    (∀ xs, dres domain rt = .answers xs →
       fetch_dns_record dres rt domain = .list xs) ∧
    (dres domain rt = .noAnswer →
       fetch_dns_record dres rt domain =
         .errDict ("No " ++ rt ++ " records found.")) ∧
    (dres domain rt = .nxdomain →
       fetch_dns_record dres rt domain =
         .errDict ("Domain \x27" ++ domain ++ "\x27 does not exist.")) ∧
    (dres domain rt = .timeout →
       fetch_dns_record dres rt domain =
         .errDict "DNS query timed out. Check your network.") ∧
    (∀ e, dres domain rt = .otherErr e →
       fetch_dns_record dres rt domain =
         .errDict ("Error retrieving " ++ rt ++ " records: " ++ e)) := by
  refine ⟨?_, ?_, ?_, ?_, ?_⟩
  · intro xs h
    simp [fetch_dns_record, h]
  · intro h
    simp [fetch_dns_record, h]
  · intro h
    simp [fetch_dns_record, h]
  · intro h
    simp [fetch_dns_record, h]
  · intro e h
    simp [fetch_dns_record, h]

/-- C5 witness: against a double that times out on MX only, the MX
fetch returns the fixed timeout message. -/
theorem C5_dns_record_classification_witness :
    fetch_dns_record tDouble "MX" "example.com" =
      .errDict "DNS query timed out. Check your network." :=
  (C5_dns_record_classification tDouble "MX" "example.com").2.2.2.1 rfl

/-- C1: code bug evidence. The handler rejects only input that strips
to the empty string and never calls validate_domain, so the
syntactically invalid domain -bad.com (the validator returns false on
it) is fetched anyway: one WHOIS invocation, five DNS invocations and
the Ready status, not the rejected state. Empty input is rejected with
the fixed Invalid Domain signal and zero invocations, as the claim
describes. -/
theorem C1_invalid_domain_is_fetched :
    validate_domain "-bad.com" = false ∧
    fetch_data wDouble dDouble "-bad.com" =
      Trace.mk
        (FetchOutcome.done "Ready"
          (LookupResult.mk (fetch_whois_info wDouble "-bad.com")
            (fetch_dns_records dDouble "-bad.com")))
        1 5 ∧
    fetch_data wDouble dDouble "" =
      Trace.mk (FetchOutcome.rejected "Error: Invalid Domain") 0 0 := by
  refine ⟨by decide, rfl, rfl⟩

/-- C8: with deterministic collaborator doubles, two invocations of
the lookup on the same input produce equal traces, hence structurally
equal results: same registration outcome, same key list, same value
under every key. The hypotheses say the doubles answer equal inputs
equally, which is exactly what two calls to one deterministic double
provide. -/
theorem C8_lookup_deterministic (w1 w2 : String → WhoisOutcome)
    (d1 d2 : String → String → DnsOutcome) (input : String)
    (hw : ∀ x, w1 x = w2 x) (hd : ∀ x y, d1 x y = d2 x y) :
    fetch_data w1 d1 input = fetch_data w2 d2 input := by
  have h1 : w1 = w2 := funext hw
  have h2 : d1 = d2 := funext fun x => funext fun y => hd x y
  rw [h1, h2]

/-- C8 witness: two invocations against the same concrete doubles. -/
theorem C8_lookup_deterministic_witness :
    fetch_data wDouble dDouble "example.com" =
      fetch_data wDouble dDouble "example.com" :=
  C8_lookup_deterministic wDouble wDouble dDouble dDouble "example.com"
    (fun _ => rfl) (fun _ _ => rfl)
